import Mathlib

/-!
Verification of `src/cross-platform/python/cli.py` against its specification.

The script is:

```
def main():
    print("Running example Python CLI from usefull-scripts")
    print(f"Python: {sys.version.split()[0]}")
    return 0

if __name__ == '__main__':
    raise SystemExit(main())
```

We embed the script shallowly.  Text is represented as `List Char`;
`sys.version` is the ambient runtime version string and is passed to `pyMain`
as an explicit argument, as is the (ignored) argument vector.  A run returns
the list of lines written by the `print` calls (each `print` appends a final
newline) together with either the returned exit code or the uncaught Python
exception.
-/

/-- The whitespace characters on which CPython's `str.split()` (called with no
separator) splits an ASCII string: space, tab, newline, vertical tab, form
feed, carriage return. -/
def pyIsSpace (c : Char) : Bool :=
  c = ' ' || c = '\t' || c = '\n' || c = '\x0b' || c = '\x0c' || c = '\r'

/-- Cut a character list at every character satisfying `p`, keeping the
(possibly empty) chunks between the cut points. -/
def splitChunksBy (p : Char → Bool) (s : List Char) : List (List Char) :=
  s.foldr
    (fun c acc =>
      if p c then [] :: acc
      else
        match acc with
        | [] => [[c]]
        | w :: ws => (c :: w) :: ws)
    [[]]

/-- CPython's `str.split()` with no separator argument: split on runs of
whitespace and discard the empty chunks, so the result is the list of
whitespace-separated tokens (empty for an empty or all-whitespace string). -/
def pySplitWs (s : List Char) : List (List Char) :=
  (splitChunksBy pyIsSpace s).filter (fun w => !w.isEmpty)

/-- The Python exceptions the script can raise. -/
inductive PyExc where
  /-- `IndexError`, raised by `list[i]` when `i` is out of range. -/
  | indexError
deriving DecidableEq, Repr

/-- Python's `xs[i]` on a list, for a non-negative index: the element when `i`
is in range, and an `IndexError` otherwise. -/
def pySubscript (xs : List (List Char)) (i : Nat) : Except PyExc (List Char) :=
  match xs.get? i with
  | some x => Except.ok x
  | none => Except.error PyExc.indexError

/-- The string literal printed first by `main`. -/
def bannerLine : List Char :=
  "Running example Python CLI from usefull-scripts".data

/-- The literal part `"Python: "` of the f-string printed second by `main`. -/
def versionLabel : List Char := "Python: ".data

/-- Outcome of one run of `main`: the lines written to standard output (in
order, one per completed `print` call) and either the returned value or the
uncaught exception. -/
structure RunResult where
  lines : List (List Char)
  exit : Except PyExc Int
deriving Repr

deriving instance DecidableEq for Except

/-- `main()` from `cli.py`, parametrised by the ambient `sys.version` string
and the argument vector (which the function never reads).  The first `print`
always completes; evaluating the f-string indexes `sys.version.split()` at 0,
which raises `IndexError` when the token list is empty, in which case the
second line is never written and `main` does not return. -/
def pyMain (version : List Char) (_argv : List (List Char)) : RunResult :=
  match pySubscript (pySplitWs version) 0 with
  | Except.ok tok => ⟨[bannerLine, versionLabel ++ tok], Except.ok 0⟩
  | Except.error e => ⟨[bannerLine], Except.error e⟩

/-- The full text a run writes to standard output: each `print` call writes
its line followed by a newline character. -/
def stdoutText (r : RunResult) : List Char :=
  (r.lines.map (fun l => l ++ ['\n'])).flatten

/-- The `if __name__ == '__main__': raise SystemExit(main())` block: the
process exit status is `main`'s return value when `main` returns, and the
uncaught exception otherwise. -/
def scriptExit (version : List Char) (argv : List (List Char)) :
    Except PyExc Int :=
  (pyMain version argv).exit

/-- Number of newline characters in a text. -/
def newlineCount (s : List Char) : Nat := s.count '\n'

/-- Modelled from the spec: a nonempty string of decimal digits, i.e. a
non-negative integer in the pattern `X.Y.Z`. -/
def isDigitStr (s : List Char) : Bool := !s.isEmpty && s.all Char.isDigit

/-- Cut a string at every `.` character (Python's `split('.')`, keeping empty
chunks). -/
def splitOnDot (s : List Char) : List (List Char) :=
  splitChunksBy (fun c => c = '.') s

/-- Modelled from the spec: a string of the form `X.Y.Z` where `X`, `Y`, `Z`
are non-negative integers. -/
def specSemverTriple (s : List Char) : Bool :=
  match splitOnDot s with
  | [x, y, z] => isDigitStr x && isDigitStr y && isDigitStr z
  | _ => false

/-- Remove an expected leading label from a string: `some` of the remainder
when the string starts with the label, `none` otherwise. -/
def dropLabel : List Char → List Char → Option (List Char)
  | [], s => some s
  | _ :: _, [] => none
  | l :: ls, c :: cs => if c = l then dropLabel ls cs else none

/-- Modelled from the spec: a line matching the pattern `Python: X.Y.Z` where
`X`, `Y`, `Z` are non-negative integers. -/
def specVersionLine (s : List Char) : Bool :=
  match dropLabel versionLabel s with
  | some rest => specSemverTriple rest
  | none => false

/-- Ambient state of a run beyond the version string: the standard-output
stream and the pieces of the environment the spec names (environment
variables, files, network traffic).  The script only appends to `stdout`. -/
structure World where
  stdout : List Char
  env : List (List Char × List Char)
  files : List (List Char × List Char)
  network : List (List Char)
  version : List Char

/-- Run the script in an ambient world: `main`'s output is appended to the
standard-output stream and nothing else in the world is touched. -/
def runScript (w : World) (argv : List (List Char)) :
    World × Except PyExc Int :=
  let r := pyMain w.version argv
  ({ w with stdout := w.stdout ++ stdoutText r }, r.exit)

/-- The statements of `main`'s body, one per source line. -/
inductive Stmt where
  /-- `print("Running example Python CLI from usefull-scripts")` -/
  | printBanner
  /-- `print(f"Python: {sys.version.split()[0]}")` -/
  | printVersion
  /-- `return 0` -/
  | ret (n : Int)

/-- `main`'s body: three straight-line statements, no loop and no call back
into `main`. -/
def mainBody : List Stmt := [Stmt.printBanner, Stmt.printVersion, Stmt.ret 0]

/-- State of the statement-level interpreter: the lines printed so far and,
once the routine has halted, its outcome. -/
structure ExecState where
  out : List (List Char)
  halted : Option (Except PyExc Int)

/-- One statement step.  A halted routine (returned or raised) executes
nothing further. -/
def execStmt (version : List Char) (s : ExecState) (st : Stmt) : ExecState :=
  match s.halted with
  | some _ => s
  | none =>
    match st with
    | Stmt.printBanner => { s with out := s.out ++ [bannerLine] }
    | Stmt.printVersion =>
      match pySubscript (pySplitWs version) 0 with
      | Except.ok tok => { s with out := s.out ++ [versionLabel ++ tok] }
      | Except.error e => { s with halted := some (Except.error e) }
    | Stmt.ret n => { s with halted := some (Except.ok n) }

/-- Execute a statement list in order, one pass, no control flow backwards. -/
def execBody (version : List Char) (body : List Stmt) (s : ExecState) :
    ExecState :=
  body.foldl (execStmt version) s

/-- Run `main`'s body from the initial state with the statement-level
interpreter. -/
def runMainSteps (version : List Char) : ExecState :=
  execBody version mainBody ⟨[], none⟩

/-! ## Helper lemmas -/

theorem splitChunksBy_cons (p : Char → Bool) (c : Char) (cs : List Char) :
    splitChunksBy p (c :: cs) =
      if p c then [] :: splitChunksBy p cs
      else
        match splitChunksBy p cs with
        | [] => [[c]]
        | w :: ws => (c :: w) :: ws := rfl

theorem splitChunksBy_ne_nil (p : Char → Bool) (s : List Char) :
    splitChunksBy p s ≠ [] := by
  induction s with
  | nil => simp [splitChunksBy]
  | cons c cs ih =>
    rw [splitChunksBy_cons]
    cases h : p c
    · simp only [h, Bool.false_eq_true, if_false]
      cases hcs : splitChunksBy p cs <;> simp
    · simp [h]

theorem pySplitWs_eq_nil_iff (s : List Char) :
    pySplitWs s = [] ↔ s.all pyIsSpace = true := by
  induction s with
  | nil => simp [pySplitWs, splitChunksBy]
  | cons c cs ih =>
    unfold pySplitWs at ih ⊢
    rw [splitChunksBy_cons]
    cases h : pyIsSpace c
    · simp only [h, Bool.false_eq_true, if_false]
      cases hcs : splitChunksBy pyIsSpace cs with
      | nil => exact absurd hcs (splitChunksBy_ne_nil _ _)
      | cons w ws => simp [List.filter_cons, h]
    · simp [List.filter_cons, h, ih]

theorem splitChunksBy_chars (p : Char → Bool) (s : List Char) :
    ∀ w ∈ splitChunksBy p s, ∀ c ∈ w, p c = false := by
  induction s with
  | nil =>
    intro w hw c hc
    simp [splitChunksBy] at hw
    subst hw
    simp at hc
  | cons a as ih =>
    intro w hw c hc
    rw [splitChunksBy_cons] at hw
    cases h : p a
    · simp only [h, Bool.false_eq_true, if_false] at hw
      cases hcs : splitChunksBy p as with
      | nil => exact absurd hcs (splitChunksBy_ne_nil _ _)
      | cons w0 ws =>
        rw [hcs] at hw
        rcases List.mem_cons.mp hw with hw | hw
        · subst hw
          rcases List.mem_cons.mp hc with hc | hc
          · subst hc; exact h
          · exact ih w0 (hcs ▸ List.mem_cons_self _ _) c hc
        · exact ih w (hcs ▸ List.mem_cons_of_mem _ hw) c hc
    · simp only [h, if_true] at hw
      rcases List.mem_cons.mp hw with hw | hw
      · subst hw; simp at hc
      · exact ih w hw c hc

theorem pySplitWs_chars (s : List Char) :
    ∀ w ∈ pySplitWs s, ∀ c ∈ w, pyIsSpace c = false := by
  intro w hw c hc
  exact splitChunksBy_chars pyIsSpace s w (List.mem_filter.mp hw).1 c hc

theorem dropLabel_append (l s : List Char) : dropLabel l (l ++ s) = some s := by
  induction l with
  | nil => rfl
  | cons c cs ih => simp [dropLabel, ih]

theorem specVersionLine_label (t : List Char) :
    specVersionLine (versionLabel ++ t) = specSemverTriple t := by
  rw [specVersionLine, dropLabel_append]

theorem pyMain_of_token (v : List Char) (a : List (List Char)) (t : List Char)
    (h : (pySplitWs v).get? 0 = some t) :
    pyMain v a = ⟨[bannerLine, versionLabel ++ t], Except.ok 0⟩ := by
  rw [pyMain, pySubscript, h]

theorem pyMain_of_no_token (v : List Char) (a : List (List Char))
    (h : pySplitWs v = []) :
    pyMain v a = ⟨[bannerLine], Except.error PyExc.indexError⟩ := by
  rw [pyMain, pySubscript, h]
  rfl

theorem any_nonspace_iff (v : List Char) :
    v.any (fun c => !pyIsSpace c) = true ↔ ¬v.all pyIsSpace = true := by
  simp only [List.any_eq_true, List.all_eq_true, Bool.not_eq_true']
  push_neg
  constructor
  · rintro ⟨x, hx, hxs⟩
    exact ⟨x, hx, by simp [hxs]⟩
  · rintro ⟨x, hx, hxs⟩
    exact ⟨x, hx, by simpa using hxs⟩

/-! ## The claims -/

/-- C2: for every invocation — any runtime version string and any argument
vector — the first line written to standard output is exactly the string
`Running example Python CLI from usefull-scripts`. -/
theorem first_line_is_banner (v : List Char) (a : List (List Char)) :
    (pyMain v a).lines.get? 0 = some bannerLine ∧
    bannerLine = "Running example Python CLI from usefull-scripts".data := by
  refine ⟨?_, rfl⟩
  rw [pyMain]
  cases pySubscript (pySplitWs v) 0 <;> rfl

/-- C1 counterexample: on a pre-release interpreter (here
`sys.version = "3.13.0rc1 (main)"`) the second line is
`Python: 3.13.0rc1` — the `rc1` suffix of the first token is kept, so the
line does not match the pattern `Python: X.Y.Z` with `X`, `Y`, `Z`
non-negative integers. -/
theorem version_pattern_cex :
    (pyMain "3.13.0rc1 (main)".data []).lines.get? 1 =
      some "Python: 3.13.0rc1".data ∧
    specVersionLine "Python: 3.13.0rc1".data = false :=
  ⟨by decide, by decide⟩

/-- C1 (amended): the second line is `Python: ` followed verbatim by the
first whitespace-separated token of the runtime version string, and it
matches the pattern `Python: X.Y.Z` (with `X`, `Y`, `Z` non-negative
integers) exactly when that token itself has the form `X.Y.Z` — pre-release
or build suffixes inside the token are not removed. -/
theorem version_line_amended (v : List Char) (a : List (List Char))
    (t : List Char) (h : (pySplitWs v).get? 0 = some t) :
    (pyMain v a).lines.get? 1 = some (versionLabel ++ t) ∧
    specVersionLine (versionLabel ++ t) = specSemverTriple t := by
  rw [pyMain_of_token v a t h]
  exact ⟨rfl, specVersionLine_label t⟩

/-- C1 witness: on the release version string `3.11.4 (main)` the theorem
yields the second line `Python: 3.11.4`. -/
theorem version_line_amended_witness :
    (pyMain "3.11.4 (main)".data []).lines.get? 1 =
      some (versionLabel ++ "3.11.4".data) ∧
    specVersionLine (versionLabel ++ "3.11.4".data) =
      specSemverTriple "3.11.4".data :=
  version_line_amended "3.11.4 (main)".data [] "3.11.4".data (by decide)

/-- C3 counterexample: with an empty runtime version string,
`sys.version.split()` is empty, the `[0]` subscript raises `IndexError`, and
`main` neither returns `0` nor exits with status `0`. -/
theorem exit_zero_cex :
    (pyMain [] []).exit = Except.error PyExc.indexError ∧
    scriptExit [] [] ≠ Except.ok 0 :=
  ⟨rfl, by decide⟩

/-- C3 (amended): for every invocation whose runtime version string contains
at least one non-whitespace character, `main` returns `0` and raises no
exception, and the process exit status — `raise SystemExit(main())` — is
`main`'s return value `0`. -/
theorem exit_zero_of_nonspace (v : List Char) (a : List (List Char))
    (h : v.any (fun c => !pyIsSpace c) = true) :
    (pyMain v a).exit = Except.ok 0 ∧
    scriptExit v a = (pyMain v a).exit ∧
    scriptExit v a = Except.ok 0 := by
  cases hsp : pySplitWs v with
  | nil =>
    rw [any_nonspace_iff] at h
    exact absurd ((pySplitWs_eq_nil_iff v).mp hsp) h
  | cons t ts =>
    have hget : (pySplitWs v).get? 0 = some t := by rw [hsp]; rfl
    rw [scriptExit, pyMain_of_token v a t hget]
    exact ⟨rfl, rfl, rfl⟩

/-- C3 witness: on the version string `3.11.4 (main)` the run exits with
status `0`. -/
theorem exit_zero_of_nonspace_witness :
    (pyMain "3.11.4 (main)".data []).exit = Except.ok 0 ∧
    scriptExit "3.11.4 (main)".data [] =
      (pyMain "3.11.4 (main)".data []).exit ∧
    scriptExit "3.11.4 (main)".data [] = Except.ok 0 :=
  exit_zero_of_nonspace "3.11.4 (main)".data [] (by decide)

/-- C4: command-line arguments are ignored — for one invocation with no
arguments and one with any extraneous argument vector (same runtime, hence
same version string), the standard-output text, `main`'s outcome and the
process exit status are identical. -/
theorem args_ignored (v : List Char) (a₁ a₂ : List (List Char)) :
    stdoutText (pyMain v a₁) = stdoutText (pyMain v a₂) ∧
    (pyMain v a₁).exit = (pyMain v a₂).exit ∧
    scriptExit v a₁ = scriptExit v a₂ :=
  ⟨rfl, rfl, rfl⟩

/-- C5: the program is deterministic in the runtime version value — two runs
whose version strings are equal produce byte-identical standard-output text
and the same outcome, whatever their argument vectors. -/
theorem deterministic_in_version (v₁ v₂ : List Char)
    (a₁ a₂ : List (List Char)) (h : v₁ = v₂) :
    stdoutText (pyMain v₁ a₁) = stdoutText (pyMain v₂ a₂) ∧
    (pyMain v₁ a₁).exit = (pyMain v₂ a₂).exit := by
  subst h
  exact ⟨rfl, rfl⟩

/-- C5 witness: two runs on the version string `3.11.4 (main)` with
different argument vectors produce identical output and outcome. -/
theorem deterministic_in_version_witness :
    stdoutText (pyMain "3.11.4 (main)".data []) =
      stdoutText (pyMain "3.11.4 (main)".data [['-', 'v']]) ∧
    (pyMain "3.11.4 (main)".data []).exit =
      (pyMain "3.11.4 (main)".data [['-', 'v']]).exit :=
  deterministic_in_version "3.11.4 (main)".data "3.11.4 (main)".data
    [] [['-', 'v']] rfl

/-- C6 counterexample: with an all-whitespace runtime version string the
second `print` raises before writing, so the run produces one line, not
two. -/
theorem two_lines_cex :
    (pyMain [' '] []).lines.length ≠ 2 ∧
    (pyMain [' '] []).lines = [bannerLine] :=
  ⟨by decide, by decide⟩

/-- C6 (amended): every invocation whose runtime version string has a first
whitespace-separated token produces exactly two newline-terminated lines on
standard output, the banner line first and the version line second: the
output text contains exactly two newline characters and ends with one. -/
theorem two_lines_of_token (v : List Char) (a : List (List Char))
    (t : List Char) (h : (pySplitWs v).get? 0 = some t) :
    (pyMain v a).lines = [bannerLine, versionLabel ++ t] ∧
    newlineCount (stdoutText (pyMain v a)) = 2 ∧
    (stdoutText (pyMain v a)).getLast? = some '\n' := by
  have hmem : t ∈ pySplitWs v := List.get?_mem h
  have ht : '\n' ∉ t := fun hc =>
    absurd (pySplitWs_chars v t hmem '\n' hc) (by decide)
  have ht0 : t.count '\n' = 0 := List.count_eq_zero.mpr ht
  have hb : bannerLine.count '\n' = 0 := by decide
  have hl : versionLabel.count '\n' = 0 := by decide
  rw [pyMain_of_token v a t h]
  refine ⟨rfl, ?_, ?_⟩
  · show newlineCount
        ((bannerLine ++ ['\n']) ++ (((versionLabel ++ t) ++ ['\n']) ++ [])) = 2
    simp [newlineCount, List.count_append, ht0, hb, hl]
  · show ((bannerLine ++ ['\n']) ++
        (((versionLabel ++ t) ++ ['\n']) ++ [])).getLast? = some '\n'
    rw [List.append_nil, ← List.append_assoc]
    exact List.getLast?_concat _

/-- C6 witness: on the version string `3.11.4 (main)` the run writes exactly
the two lines, each newline-terminated. -/
theorem two_lines_of_token_witness :
    (pyMain "3.11.4 (main)".data []).lines =
      [bannerLine, versionLabel ++ "3.11.4".data] ∧
    newlineCount (stdoutText (pyMain "3.11.4 (main)".data [])) = 2 ∧
    (stdoutText (pyMain "3.11.4 (main)".data [])).getLast? = some '\n' :=
  two_lines_of_token "3.11.4 (main)".data [] "3.11.4".data (by decide)

/-- C7: the only side effect of a run is writing to standard output — the
environment variables, files and network of the ambient world are unchanged,
the version value is only read, the standard-output stream is only appended
to, and the exit outcome is a function of the version string and argument
vector alone. -/
theorem stdout_only_side_effect (w : World) (a : List (List Char)) :
    (runScript w a).1.env = w.env ∧
    (runScript w a).1.files = w.files ∧
    (runScript w a).1.network = w.network ∧
    (runScript w a).1.version = w.version ∧
    (runScript w a).1.stdout = w.stdout ++ stdoutText (pyMain w.version a) ∧
    (runScript w a).2 = (pyMain w.version a).exit :=
  ⟨rfl, rfl, rfl, rfl, rfl, rfl⟩

/-- C8: execution always terminates — `main`'s body is the straight-line,
loop-free, non-recursive three-statement list `mainBody`, and one pass of the
statement-level interpreter over it halts with `main`'s outcome and output for
every version string. -/
theorem straight_line_run (v : List Char) (a : List (List Char)) :
    mainBody.length = 3 ∧
    (runMainSteps v).halted = some (pyMain v a).exit ∧
    (runMainSteps v).out = (pyMain v a).lines := by
  refine ⟨rfl, ?_, ?_⟩ <;>
  · rw [runMainSteps, execBody, mainBody, pyMain]
    cases h : pySubscript (pySplitWs v) 0 <;>
      simp [execStmt, h]

/-- C9: the text on the second line after `Python: ` is exactly the first
whitespace-separated token of the runtime's full version string, taken
verbatim, whatever characters that token contains. -/
theorem second_line_verbatim_token (v : List Char) (a : List (List Char))
    (t : List Char) (h : (pySplitWs v).get? 0 = some t) :
    (pyMain v a).lines.get? 1 = some (versionLabel ++ t) := by
  rw [pyMain_of_token v a t h]
  rfl

/-- C9 witness: on the pre-release version string `3.13.0b3 (main)` the
second line carries the token `3.13.0b3` verbatim. -/
theorem second_line_verbatim_token_witness :
    (pyMain "3.13.0b3 (main)".data []).lines.get? 1 =
      some (versionLabel ++ "3.13.0b3".data) :=
  second_line_verbatim_token "3.13.0b3 (main)".data [] "3.13.0b3".data
    (by decide)

/-- C10: `main` succeeds exactly when the runtime version string contains a
non-whitespace character — then the `[0]` subscript is in bounds and `main`
returns `0` — and raises `IndexError` exactly when the version string is
empty or all whitespace. -/
theorem main_total_iff (v : List Char) (a : List (List Char)) :
    ((pyMain v a).exit = Except.ok 0 ↔
      v.any (fun c => !pyIsSpace c) = true) ∧
    ((pyMain v a).exit = Except.error PyExc.indexError ↔
      v.all pyIsSpace = true) := by
  cases hsp : pySplitWs v with
  | nil =>
    have hall := (pySplitWs_eq_nil_iff v).mp hsp
    rw [pyMain_of_no_token v a hsp]
    constructor
    · exact ⟨fun hc => by simp at hc,
        fun hc => absurd hall ((any_nonspace_iff v).mp hc)⟩
    · exact ⟨fun _ => hall, fun _ => rfl⟩
  | cons t ts =>
    have hget : (pySplitWs v).get? 0 = some t := by rw [hsp]; rfl
    have hall : ¬v.all pyIsSpace = true := by
      intro hc
      rw [(pySplitWs_eq_nil_iff v).mpr hc] at hsp
      exact List.noConfusion hsp
    rw [pyMain_of_token v a t hget]
    constructor
    · exact ⟨fun _ => (any_nonspace_iff v).mpr hall, fun _ => rfl⟩
    · exact ⟨fun hc => by simp at hc, fun hc => absurd hc hall⟩
